import Mathlib

/-!
Verification of the pigweed `pw_kvs` sources: the in-memory fake flash
(`pw_kvs/public/pw_kvs/in_memory_fake_flash.h`) and the key-value-store test
harness (`pw_kvs/key_value_store_map_test.cc`), together with a model of the
key-value store engine taken from the design specification (the engine
`key_value_store.h` itself is not among the available sources).

Bytes are modelled as natural numbers; the flash backing buffer
`std::array<uint8_t, kSectorCount * kSectorSize> buffer_` is modelled as a
function from byte addresses to byte values, with the device size
`sectorCount * sectorSizeBytes` bounding which addresses are meaningful.
-/

namespace PwKvs

/-- Status codes used by the sources (`pw_status`): the subset that the
fake flash and the key-value store operations return. -/
inductive Status where
  | OK
  | INVALID_ARGUMENT
  | UNKNOWN
  | NOT_FOUND
  | RESOURCE_EXHAUSTED
deriving DecidableEq, Repr

/-- Model of `InMemoryFakeFlash<kSectorSize, kSectorCount>` with its
constructor argument `alignment_bytes`.  The backing buffer is the
`std::array<uint8_t, kSectorCount * kSectorSize> buffer_` member, modelled as
a function from addresses to byte values.  The base class `FlashMemory`
(from `flash_memory.h`, not among the sources) only supplies the accessors
`sector_size_bytes()`, `sector_count()`, `alignment_bytes()` and the total
device size in bytes, which per the specification is
`sector_count * sector_size` bytes. -/
structure InMemoryFakeFlash where
  sectorSizeBytes : Nat
  sectorCount : Nat
  alignmentBytes : Nat
  buffer : Nat → Nat

/-- Total size of the fake flash device in bytes: the bound
`sector_count() * size_bytes()` used by `Read` and `Write`, read per the
specification as the whole-device byte count `sector_count * sector_size`. -/
def InMemoryFakeFlash.totalBytes (f : InMemoryFakeFlash) : Nat :=
  f.sectorCount * f.sectorSizeBytes

/-- Model of `InMemoryFakeFlash::Erase(address, num_sectors)`:
reject a non-sector-aligned address with `INVALID_ARGUMENT`; reject a range
reaching past the partition end with `UNKNOWN`; reject a non-alignment-aligned
address with `INVALID_ARGUMENT`; otherwise `memset` the range
`[address, address + sector_size * num_sectors)` to `0xFF`. -/
def InMemoryFakeFlash.Erase (f : InMemoryFakeFlash) (address numSectors : Nat) :
    Status × InMemoryFakeFlash :=
  if address % f.sectorSizeBytes ≠ 0 then
    (Status.INVALID_ARGUMENT, f)
  else if f.sectorCount < address / f.sectorSizeBytes + numSectors then
    (Status.UNKNOWN, f)
  else if address % f.alignmentBytes ≠ 0 then
    (Status.INVALID_ARGUMENT, f)
  else
    (Status.OK,
      { f with
        buffer := fun j =>
          if address ≤ j ∧ j < address + f.sectorSizeBytes * numSectors then 0xFF
          else f.buffer j })

/-- Model of `InMemoryFakeFlash::Read(address, output)`: reject with
`INVALID_ARGUMENT` when `address + output.size() >= sector_count() * size_bytes()`
(note the non-strict comparison in the source); otherwise `memcpy` the
`output.size()` bytes starting at `address` out of the backing buffer.  The
filled output span is returned as the list of bytes read. -/
def InMemoryFakeFlash.Read (f : InMemoryFakeFlash) (address len : Nat) :
    Status × List Nat :=
  if f.totalBytes ≤ address + len then
    (Status.INVALID_ARGUMENT, [])
  else
    (Status.OK, (List.range len).map fun i => f.buffer (address + i))

/-- Model of `InMemoryFakeFlash::Write(address, data)`: reject with
`INVALID_ARGUMENT` when `address + data.size() >= sector_count() * size_bytes()`
(non-strict, as in the source) or when `address` or `data.size()` is not a
multiple of the alignment; then scan the target range and reject with
`UNKNOWN` if any byte is not in the erased state `0xFF`; otherwise `memcpy`
the data into the buffer. -/
def InMemoryFakeFlash.Write (f : InMemoryFakeFlash) (address : Nat)
    (data : List Nat) : Status × InMemoryFakeFlash :=
  if f.totalBytes ≤ address + data.length ∨
      address % f.alignmentBytes ≠ 0 ∨ data.length % f.alignmentBytes ≠ 0 then
    (Status.INVALID_ARGUMENT, f)
  else if ∀ i, i < data.length → f.buffer (address + i) = 0xFF then
    (Status.OK,
      { f with
        buffer := fun j =>
          if address ≤ j ∧ j < address + data.length then data.getD (j - address) 0
          else f.buffer j })
  else
    (Status.UNKNOWN, f)

/-- Fake flash device for the C2 counterexample: 1 sector of 8 bytes,
alignment 2, every byte currently `0x00` (not erased). -/
def ff2 : InMemoryFakeFlash := ⟨8, 1, 2, fun _ => 0x00⟩

/-- Fake flash device for the C2 witness: 1 sector of 8 bytes, alignment 1,
every byte currently `0x00` (not erased). -/
def ff2w : InMemoryFakeFlash := ⟨8, 1, 1, fun _ => 0x00⟩

/-- Fake flash device for C3: 1 sector of 4 bytes, alignment 1, fully erased. -/
def ff3 : InMemoryFakeFlash := ⟨4, 1, 1, fun _ => 0xFF⟩

/-- Fake flash device for C4: 1 sector of 4 bytes, alignment 1, fully erased. -/
def ff4 : InMemoryFakeFlash := ⟨4, 1, 1, fun _ => 0xFF⟩

/-- Fake flash device for the C5 witness: 2 sectors of 4 bytes, alignment 1,
every byte currently `0x00`. -/
def ff5 : InMemoryFakeFlash := ⟨4, 2, 1, fun _ => 0x00⟩

/-- Fake flash device for the C9 witness: 1 sector of 4 bytes, alignment 2,
every byte currently `0x00`. -/
def ff9 : InMemoryFakeFlash := ⟨4, 1, 2, fun _ => 0x00⟩

/-- Fake flash device for the C10 witness: 1 sector of 4 bytes, alignment 1,
whose byte at address `j` holds the value `j`. -/
def ff10 : InMemoryFakeFlash := ⟨4, 1, 1, fun j => j⟩

/-- C2 (counterexample): as stated, the claim that a `Write` whose target
region contains a non-0xFF byte returns `UNKNOWN` is false: a misaligned
`Write` over a non-erased region returns `INVALID_ARGUMENT` instead.  On the
device `ff2` (alignment 2), writing 2 bytes at the odd address 1 targets a
region whose first byte is `0x00`, yet the result is not `UNKNOWN`. -/
theorem write_dirty_not_unknown_cex :
    ff2.buffer (1 + 0) ≠ 0xFF ∧ (ff2.Write 1 [1, 1]).1 = Status.INVALID_ARGUMENT ∧
      (ff2.Write 1 [1, 1]).1 ≠ Status.UNKNOWN := by
  decide

/-- C2 (amended): no `Write` ever changes a byte whose current content is not
`0xFF`; and a `Write` that passes the range and alignment validation and whose
target region contains a non-0xFF byte returns `UNKNOWN` and leaves the
buffer unchanged. -/
theorem write_requires_erased (f : InMemoryFakeFlash) (address : Nat)
    (data : List Nat) :
    (∀ j, f.buffer j ≠ 0xFF → ((f.Write address data).2).buffer j = f.buffer j) ∧
    (address + data.length < f.totalBytes →
      address % f.alignmentBytes = 0 →
      data.length % f.alignmentBytes = 0 →
      ¬ (∀ i, i < data.length → f.buffer (address + i) = 0xFF) →
      (f.Write address data).1 = Status.UNKNOWN ∧ (f.Write address data).2 = f) := by
  unfold InMemoryFakeFlash.Write
  constructor
  · intro j hj
    split
    · rfl
    · split
      · next hFF =>
        show (if address ≤ j ∧ j < address + data.length then data.getD (j - address) 0
              else f.buffer j) = f.buffer j
        by_cases hrange : address ≤ j ∧ j < address + data.length
        · exfalso
          have h1 : j - address < data.length := by omega
          have h2 : address + (j - address) = j := by omega
          have h3 := hFF (j - address) h1
          rw [h2] at h3
          exact hj h3
        · rw [if_neg hrange]
      · rfl
  · intro hlt halign hdalign hdirty
    have hcond : ¬ (f.totalBytes ≤ address + data.length ∨
        address % f.alignmentBytes ≠ 0 ∨ data.length % f.alignmentBytes ≠ 0) := by
      push_neg
      exact ⟨by omega, halign, hdalign⟩
    rw [if_neg hcond, if_neg hdirty]
    exact ⟨rfl, rfl⟩

/-- C2 (witness): a well-aligned in-range `Write` over a `0x00` byte returns
`UNKNOWN` and leaves the non-erased byte unchanged. -/
theorem write_requires_erased_witness :
    (ff2w.Write 0 [1]).1 = Status.UNKNOWN ∧
      ((ff2w.Write 0 [1]).2).buffer 0 = 0x00 := by
  have h := write_requires_erased ff2w 0 [1]
  refine ⟨(h.2 (by decide) (by decide) (by decide) (by decide)).1, ?_⟩
  have h0 := h.1 0 (by decide)
  simpa using h0

/-- C3 (code bug): a read whose last byte is exactly the last byte of the
device is rejected with `INVALID_ARGUMENT` by the fake flash, because `Read`
compares with `>=` instead of `>`; the flash contract says such a read
succeeds.  On the 4-byte device `ff3`, reading 1 byte at address 3 satisfies
`address + length ≤ device size`, yet fails. -/
theorem read_last_byte_rejected :
    3 + 1 ≤ ff3.totalBytes ∧ (ff3.Read 3 1).1 = Status.INVALID_ARGUMENT := by
  decide

/-- C4 (code bug): a write whose region ends exactly at the device end is
rejected with `INVALID_ARGUMENT` by the fake flash, because `Write` compares
with `>=` instead of `>`.  On the fully-erased 4-byte device `ff4` with
alignment 1, writing 1 byte at address 3 is aligned, lies within the device
and targets an all-`0xFF` region, yet fails. -/
theorem write_last_byte_rejected :
    ff4.buffer 3 = 0xFF ∧ 3 % ff4.alignmentBytes = 0 ∧
      1 % ff4.alignmentBytes = 0 ∧ 3 + 1 ≤ ff4.totalBytes ∧
      (ff4.Write 3 [0]).1 = Status.INVALID_ARGUMENT := by
  decide

/-- C5: `Erase(address, num_sectors)` fails with `INVALID_ARGUMENT` when the
address is not sector-aligned; and whenever it succeeds, the erased range lies
within the device and every byte in
`[address, address + num_sectors * sector_size)` is reset to `0xFF`. -/
theorem erase_aligned_and_resets (f : InMemoryFakeFlash)
    (address numSectors : Nat) :
    (address % f.sectorSizeBytes ≠ 0 →
      (f.Erase address numSectors).1 = Status.INVALID_ARGUMENT) ∧
    ((f.Erase address numSectors).1 = Status.OK →
      address + numSectors * f.sectorSizeBytes ≤ f.totalBytes ∧
      ∀ j, address ≤ j → j < address + f.sectorSizeBytes * numSectors →
        ((f.Erase address numSectors).2).buffer j = 0xFF) := by
  unfold InMemoryFakeFlash.Erase
  constructor
  · intro h
    rw [if_pos h]
  · intro hok
    by_cases h1 : address % f.sectorSizeBytes ≠ 0
    · rw [if_pos h1] at hok
      exact Status.noConfusion hok
    · rw [if_neg h1] at hok
      by_cases h2 : f.sectorCount < address / f.sectorSizeBytes + numSectors
      · rw [if_pos h2] at hok
        exact Status.noConfusion hok
      · rw [if_neg h2] at hok
        by_cases h3 : address % f.alignmentBytes ≠ 0
        · rw [if_pos h3] at hok
          exact Status.noConfusion hok
        · constructor
          · have hdvd : address / f.sectorSizeBytes * f.sectorSizeBytes = address :=
              Nat.div_mul_cancel (Nat.dvd_of_mod_eq_zero (by omega))
            have hle : address / f.sectorSizeBytes + numSectors ≤ f.sectorCount := by
              omega
            calc address + numSectors * f.sectorSizeBytes
                = (address / f.sectorSizeBytes + numSectors) * f.sectorSizeBytes := by
                  rw [Nat.add_mul, hdvd]
              _ ≤ f.sectorCount * f.sectorSizeBytes :=
                  Nat.mul_le_mul_right _ hle
              _ = f.totalBytes := rfl
          · intro j hj1 hj2
            rw [if_neg h1, if_neg h2, if_neg h3]
            show (if address ≤ j ∧ j < address + f.sectorSizeBytes * numSectors then 0xFF
                  else f.buffer j) = 0xFF
            rw [if_pos ⟨hj1, hj2⟩]

/-- C5 (witness): on the 2-sector 4-byte-sector device `ff5`, erasing at the
unaligned address 2 fails with `INVALID_ARGUMENT`, and erasing 1 sector at
address 4 resets byte 5 to `0xFF`. -/
theorem erase_aligned_and_resets_witness :
    (ff5.Erase 2 1).1 = Status.INVALID_ARGUMENT ∧
      ((ff5.Erase 4 1).2).buffer 5 = 0xFF := by
  refine ⟨(erase_aligned_and_resets ff5 2 1).1 (by decide), ?_⟩
  exact ((erase_aligned_and_resets ff5 4 1).2 (by decide)).2 5 (by decide) (by decide)

/-- C9: a failing `Write` and a failing `Erase` (whatever error status they
return) leave the backing buffer completely unchanged: every precondition
check happens before any mutation. -/
theorem failed_write_erase_atomic (f : InMemoryFakeFlash) (address : Nat)
    (data : List Nat) (numSectors : Nat) :
    ((f.Write address data).1 ≠ Status.OK → (f.Write address data).2 = f) ∧
    ((f.Erase address numSectors).1 ≠ Status.OK →
      (f.Erase address numSectors).2 = f) := by
  constructor
  · intro h
    unfold InMemoryFakeFlash.Write at h ⊢
    by_cases h1 : f.totalBytes ≤ address + data.length ∨
        address % f.alignmentBytes ≠ 0 ∨ data.length % f.alignmentBytes ≠ 0
    · rw [if_pos h1]
    · rw [if_neg h1] at h ⊢
      by_cases h2 : ∀ i, i < data.length → f.buffer (address + i) = 0xFF
      · rw [if_pos h2] at h
        exact absurd rfl h
      · rw [if_neg h2]
  · intro h
    unfold InMemoryFakeFlash.Erase at h ⊢
    by_cases h1 : address % f.sectorSizeBytes ≠ 0
    · rw [if_pos h1]
    · rw [if_neg h1] at h ⊢
      by_cases h2 : f.sectorCount < address / f.sectorSizeBytes + numSectors
      · rw [if_pos h2]
      · rw [if_neg h2] at h ⊢
        by_cases h3 : address % f.alignmentBytes ≠ 0
        · rw [if_pos h3]
        · rw [if_neg h3] at h
          exact absurd rfl h

/-- C9 (witness): on `ff9` (alignment 2), the misaligned 1-byte write at
address 1 and the non-sector-aligned erase at address 1 both leave the device
unchanged. -/
theorem failed_write_erase_atomic_witness :
    (ff9.Write 1 [1]).2 = ff9 ∧ (ff9.Erase 1 1).2 = ff9 :=
  ⟨(failed_write_erase_atomic ff9 1 [1] 1).1 (by decide),
   (failed_write_erase_atomic ff9 1 [1] 1).2 (by decide)⟩

/-- C10: `Read` never returns `UNKNOWN`: it fails with `INVALID_ARGUMENT`
exactly when `address + length >= sector_count * sector_size`, succeeds
otherwise regardless of alignment, and on success fills the output with the
`length` bytes of the backing buffer starting at `address`. -/
theorem read_characterization (f : InMemoryFakeFlash) (address len : Nat) :
    (f.Read address len).1 ≠ Status.UNKNOWN ∧
    ((f.Read address len).1 = Status.INVALID_ARGUMENT ↔
      f.totalBytes ≤ address + len) ∧
    ((f.Read address len).1 = Status.OK →
      (f.Read address len).2 = (List.range len).map fun i => f.buffer (address + i)) := by
  unfold InMemoryFakeFlash.Read
  by_cases h : f.totalBytes ≤ address + len
  · rw [if_pos h]
    exact ⟨fun hu => Status.noConfusion hu, ⟨fun _ => h, fun _ => rfl⟩,
      fun hok => Status.noConfusion hok⟩
  · rw [if_neg h]
    exact ⟨fun hu => Status.noConfusion hu,
      ⟨fun hh => Status.noConfusion hh, fun hh => absurd hh h⟩, fun _ => rfl⟩

/-- C10 (witness): on the 4-byte device `ff10`, reading past the end fails
with `INVALID_ARGUMENT`, and reading 2 bytes at address 1 returns the buffer
contents `[1, 2]`. -/
theorem read_characterization_witness :
    (ff10.Read 4 1).1 = Status.INVALID_ARGUMENT ∧ (ff10.Read 1 2).2 = [1, 2] := by
  refine ⟨(read_characterization ff10 4 1).2.1.mpr (by decide), ?_⟩
  have h := (read_characterization ff10 1 2).2.2 (by decide)
  rw [h]
  decide

/-- Modelled from the spec: `internal::Entry::kMaxKeyLength` (the entry codec
is not among the sources); the specification fixes the valid key lengths to
`1..64`. -/
def kMaxKeyLength : Nat := 64

/-- State of a key descriptor in the in-RAM index, per the specification:
`state ∈ {valid, deleted}`. -/
inductive EntryState where
  | valid
  | deleted
deriving DecidableEq, Repr

/-- Modelled from the spec: one key descriptor of the in-RAM index.  The
specification stores a key hash plus the on-flash entry address; since hash
collisions are resolved by comparing the on-flash key bytes and the value is
read back from the entry, the descriptor is modelled as holding the key bytes
and the current value bytes directly. -/
structure KeyDescriptor where
  key : List Nat
  state : EntryState
  value : List Nat
deriving DecidableEq, Repr

/-- Modelled from the spec: the key-value store engine `KeyValueStore`
(`key_value_store.h` is not among the sources).  `maxEntries` is the
compile-time index capacity `kMaxEntries`, `maxValueLength` the maximum value
size, and `entries` the bounded index of key descriptors (at most one per
key; tombstones occupy slots until `Init` purges them).  Flash-space
allocation and garbage collection are abstracted as always finding room, so
`ResourceExhausted` arises only from index capacity. -/
structure KeyValueStore where
  maxEntries : Nat
  maxValueLength : Nat
  entries : List KeyDescriptor
deriving DecidableEq, Repr

/-- Lookup of the descriptor for a key in the index: the first descriptor
whose key bytes match. -/
def findDescriptor : List KeyDescriptor → List Nat → Option KeyDescriptor
  | [], _ => none
  | d :: ds, k => if d.key = k then some d else findDescriptor ds k

/-- Insert-or-overwrite of a descriptor in the index: replaces the first
descriptor with the same key, or appends when the key is new. -/
def setDescriptor : List KeyDescriptor → KeyDescriptor → List KeyDescriptor
  | [], d => [d]
  | e :: es, d => if e.key = d.key then d :: es else e :: setDescriptor es d

/-- Modelled from the spec: `KeyValueStore::Put(key, value)`.  Step 1
validates `|key| ∈ [1, 64]` and `|value| ≤ kMaxValueLength`, failing with
`INVALID_ARGUMENT`; step 3 fails with `RESOURCE_EXHAUSTED` when the index is
full and the key is new; otherwise the entry is written and the index is
updated to a `valid` descriptor holding the new value. -/
def KeyValueStore.Put (kvs : KeyValueStore) (key value : List Nat) :
    Status × KeyValueStore :=
  if key.length = 0 ∨ kMaxKeyLength < key.length ∨
      kvs.maxValueLength < value.length then
    (Status.INVALID_ARGUMENT, kvs)
  else
    match findDescriptor kvs.entries key with
    | some _ =>
        (Status.OK,
          { kvs with
            entries := setDescriptor kvs.entries ⟨key, EntryState.valid, value⟩ })
    | none =>
        if kvs.maxEntries ≤ kvs.entries.length then
          (Status.RESOURCE_EXHAUSTED, kvs)
        else
          (Status.OK,
            { kvs with
              entries := setDescriptor kvs.entries ⟨key, EntryState.valid, value⟩ })

/-- Modelled from the spec: `KeyValueStore::Delete(key)`.  Validation is as
for `Put` (key length only); a key that is absent or already in `deleted`
state fails with `NOT_FOUND`; otherwise a tombstone entry is written and the
descriptor's state becomes `deleted`. -/
def KeyValueStore.Delete (kvs : KeyValueStore) (key : List Nat) :
    Status × KeyValueStore :=
  if key.length = 0 ∨ kMaxKeyLength < key.length then
    (Status.INVALID_ARGUMENT, kvs)
  else
    match findDescriptor kvs.entries key with
    | some d =>
        if d.state = EntryState.deleted then
          (Status.NOT_FOUND, kvs)
        else
          (Status.OK,
            { kvs with
              entries := setDescriptor kvs.entries ⟨key, EntryState.deleted, []⟩ })
    | none => (Status.NOT_FOUND, kvs)

/-- Modelled from the spec: `KeyValueStore::Get(key)`.  A key that is absent
from the index or whose descriptor is in `deleted` state yields `NOT_FOUND`
(here `none`); otherwise the current value bytes are read back. -/
def KeyValueStore.Get (kvs : KeyValueStore) (key : List Nat) :
    Option (List Nat) :=
  match findDescriptor kvs.entries key with
  | some d => if d.state = EntryState.valid then some d.value else none
  | none => none

/-- Reference mapping of the test harness
(`std::unordered_map<std::string, std::string> map_`), modelled as an
association list of key and value byte strings: lookup of the first matching
key. -/
def mapLookup : List (List Nat × List Nat) → List Nat → Option (List Nat)
  | [], _ => none
  | e :: es, k => if e.1 = k then some e.2 else mapLookup es k

/-- Update `map_[key] = value` on the reference mapping: replace the first
binding of the key, or append a new binding. -/
def mapSet : List (List Nat × List Nat) → List Nat → List Nat →
    List (List Nat × List Nat)
  | [], k, v => [(k, v)]
  | e :: es, k, v => if e.1 = k then (k, v) :: es else e :: mapSet es k v

/-- Update `map_.erase(key)` on the reference mapping: remove every binding
of the key. -/
def mapErase : List (List Nat × List Nat) → List Nat →
    List (List Nat × List Nat)
  | [], _ => []
  | e :: es, k => if e.1 = k then mapErase es k else e :: mapErase es k

/-- One operation of the test harness's random workload: a `Put` or a
`Delete`. -/
inductive KvsOp where
  | put (key value : List Nat)
  | del (key : List Nat)

/-- One step of the test harness (`KvsTester::Put` / `KvsTester::Delete`):
the operation is applied to the store, and the reference mapping is updated
exactly when the store reports success. -/
def stepOp (s : KeyValueStore × List (List Nat × List Nat)) (op : KvsOp) :
    KeyValueStore × List (List Nat × List Nat) :=
  match op with
  | KvsOp.put key value =>
      ((s.1.Put key value).2,
        if (s.1.Put key value).1 = Status.OK then mapSet s.2 key value else s.2)
  | KvsOp.del key =>
      ((s.1.Delete key).2,
        if (s.1.Delete key).1 = Status.OK then mapErase s.2 key else s.2)

/-- Run a sequence of harness operations starting from a freshly initialized
store (empty index) and an empty reference mapping. -/
def runOps (maxE maxV : Nat) (ops : List KvsOp) :
    KeyValueStore × List (List Nat × List Nat) :=
  ops.foldl stepOp (⟨maxE, maxV, []⟩, [])

/-- Model of `KvsTester::RandomPresentKey` from the test harness: returns the
empty string when the reference map is empty, and otherwise
`map_.begin()->second`, i.e. the value of the first entry in iteration
order.  Keys and values are the harness's `std::string`s. -/
def RandomPresentKey (m : List (String × String)) : String :=
  match m with
  | [] => ""
  | e :: _ => e.2

lemma findDescriptor_setDescriptor (es : List KeyDescriptor) (d : KeyDescriptor)
    (k : List Nat) :
    findDescriptor (setDescriptor es d) k =
      if d.key = k then some d else findDescriptor es k := by
  induction es with
  | nil => rfl
  | cons e es ih =>
    unfold setDescriptor
    by_cases he : e.key = d.key
    · rw [if_pos he]
      by_cases hd : d.key = k
      · simp [findDescriptor, hd]
      · have he' : e.key ≠ k := by rw [he]; exact hd
        simp [findDescriptor, hd, he']
    · rw [if_neg he]
      by_cases hek : e.key = k
      · have hd : d.key ≠ k := fun hh => he (hek.trans hh.symm)
        simp [findDescriptor, hek, hd]
      · simp [findDescriptor, hek, ih]

lemma mapLookup_mapSet (m : List (List Nat × List Nat)) (k v k' : List Nat) :
    mapLookup (mapSet m k v) k' = if k = k' then some v else mapLookup m k' := by
  induction m with
  | nil => rfl
  | cons e es ih =>
    unfold mapSet
    by_cases he : e.1 = k
    · rw [if_pos he]
      by_cases hk : k = k'
      · simp [mapLookup, hk]
      · have he' : e.1 ≠ k' := by rw [he]; exact hk
        simp [mapLookup, hk, he']
    · rw [if_neg he]
      by_cases hek : e.1 = k'
      · have hk : k ≠ k' := fun hh => he (hek.trans hh.symm)
        simp [mapLookup, hek, hk]
      · simp [mapLookup, hek, ih]

lemma mapLookup_mapErase (m : List (List Nat × List Nat)) (k k' : List Nat) :
    mapLookup (mapErase m k) k' = if k = k' then none else mapLookup m k' := by
  induction m with
  | nil => simp [mapErase, mapLookup]
  | cons e es ih =>
    unfold mapErase
    by_cases he : e.1 = k
    · rw [if_pos he, ih]
      by_cases hk : k = k'
      · simp [hk]
      · have he' : e.1 ≠ k' := by rw [he]; exact hk
        simp [mapLookup, hk, he']
    · rw [if_neg he]
      by_cases hek : e.1 = k'
      · have hk : k ≠ k' := fun hh => he (hek.trans hh.symm)
        simp [mapLookup, hek, hk]
      · simp [mapLookup, hek, ih]

lemma Put_cases (kvs : KeyValueStore) (key value : List Nat) :
    kvs.Put key value = (Status.INVALID_ARGUMENT, kvs) ∨
    kvs.Put key value = (Status.RESOURCE_EXHAUSTED, kvs) ∨
    kvs.Put key value =
      (Status.OK,
        { kvs with
          entries := setDescriptor kvs.entries ⟨key, EntryState.valid, value⟩ }) := by
  unfold KeyValueStore.Put
  split
  · exact Or.inl rfl
  · split
    · exact Or.inr (Or.inr rfl)
    · split
      · exact Or.inr (Or.inl rfl)
      · exact Or.inr (Or.inr rfl)

lemma Delete_cases (kvs : KeyValueStore) (key : List Nat) :
    kvs.Delete key = (Status.INVALID_ARGUMENT, kvs) ∨
    kvs.Delete key = (Status.NOT_FOUND, kvs) ∨
    kvs.Delete key =
      (Status.OK,
        { kvs with
          entries := setDescriptor kvs.entries ⟨key, EntryState.deleted, []⟩ }) := by
  unfold KeyValueStore.Delete
  split
  · exact Or.inl rfl
  · split
    · split
      · exact Or.inr (Or.inl rfl)
      · exact Or.inr (Or.inr rfl)
    · exact Or.inr (Or.inl rfl)

lemma Get_setDescriptor (kvs : KeyValueStore) (d : KeyDescriptor) (k : List Nat) :
    KeyValueStore.Get { kvs with entries := setDescriptor kvs.entries d } k =
      if d.key = k then (if d.state = EntryState.valid then some d.value else none)
      else kvs.Get k := by
  unfold KeyValueStore.Get
  show (match findDescriptor (setDescriptor kvs.entries d) k with
        | some d => if d.state = EntryState.valid then some d.value else none
        | none => none) = _
  rw [findDescriptor_setDescriptor]
  by_cases hd : d.key = k
  · rw [if_pos hd, if_pos hd]
  · rw [if_neg hd, if_neg hd]

lemma stepOp_inv (s : KeyValueStore × List (List Nat × List Nat)) (op : KvsOp)
    (h : ∀ k, s.1.Get k = mapLookup s.2 k) :
    ∀ k, (stepOp s op).1.Get k = mapLookup (stepOp s op).2 k := by
  intro k
  cases op with
  | put key value =>
    show ((s.1.Put key value).2).Get k =
      mapLookup
        (if (s.1.Put key value).1 = Status.OK then mapSet s.2 key value else s.2) k
    rcases Put_cases s.1 key value with hc | hc | hc
    · rw [hc, if_neg (fun hh => Status.noConfusion hh)]
      exact h k
    · rw [hc, if_neg (fun hh => Status.noConfusion hh)]
      exact h k
    · rw [hc, if_pos rfl, Get_setDescriptor, mapLookup_mapSet]
      by_cases hk : key = k
      · simp [hk]
      · simp [hk, h k]
  | del key =>
    show ((s.1.Delete key).2).Get k =
      mapLookup
        (if (s.1.Delete key).1 = Status.OK then mapErase s.2 key else s.2) k
    rcases Delete_cases s.1 key with hc | hc | hc
    · rw [hc, if_neg (fun hh => Status.noConfusion hh)]
      exact h k
    · rw [hc, if_neg (fun hh => Status.noConfusion hh)]
      exact h k
    · rw [hc, if_pos rfl, Get_setDescriptor, mapLookup_mapErase]
      by_cases hk : key = k
      · simp [hk]
      · simp [hk, h k]

lemma foldl_stepOp_inv (ops : List KvsOp) :
    ∀ s, (∀ k, s.1.Get k = mapLookup s.2 k) →
      ∀ k, (ops.foldl stepOp s).1.Get k = mapLookup (ops.foldl stepOp s).2 k := by
  induction ops with
  | nil => intro s h; exact h
  | cons op ops ih => intro s h; exact ih (stepOp s op) (stepOp_inv s op h)

/-- C1: after any sequence of `Put`/`Delete` operations run through the test
harness (the reference map being updated exactly on success), every key maps
to the same value in the store as in the reference map — present keys return
the mapped value byte-for-byte, absent keys are absent from the store. -/
theorem kvs_matches_reference_map (maxE maxV : Nat) (ops : List KvsOp)
    (key : List Nat) :
    (runOps maxE maxV ops).1.Get key = mapLookup (runOps maxE maxV ops).2 key :=
  foldl_stepOp_inv ops (⟨maxE, maxV, []⟩, []) (fun _ => rfl) key

/-- Example store for the C6 witness: index capacity 1, holding the single
key `[97]`. -/
def kvs6 : KeyValueStore := ⟨1, 64, [⟨[97], EntryState.valid, [1]⟩]⟩

/-- C6: when the index already holds `maxEntries` descriptors, a `Put` of a
valid key/value pair still succeeds when the key is present in the index (a
replacement), and fails with `RESOURCE_EXHAUSTED` exactly when the key is
new. -/
theorem put_at_full_index (kvs : KeyValueStore) (key value : List Nat)
    (hk0 : key.length ≠ 0) (hk64 : key.length ≤ kMaxKeyLength)
    (hv : value.length ≤ kvs.maxValueLength)
    (hfull : kvs.entries.length = kvs.maxEntries) :
    ((findDescriptor kvs.entries key).isSome → (kvs.Put key value).1 = Status.OK) ∧
    (findDescriptor kvs.entries key = none →
      (kvs.Put key value).1 = Status.RESOURCE_EXHAUSTED) := by
  have hval : ¬(key.length = 0 ∨ kMaxKeyLength < key.length ∨
      kvs.maxValueLength < value.length) := by
    push_neg
    exact ⟨hk0, hk64, hv⟩
  unfold KeyValueStore.Put
  rw [if_neg hval]
  constructor
  · intro hsome
    cases hfind : findDescriptor kvs.entries key with
    | some d => simp [hfind]
    | none =>
      rw [hfind] at hsome
      exact absurd hsome (by simp)
  · intro hnone
    simp only [hnone]
    rw [if_pos (le_of_eq hfull.symm)]

/-- C6 (witness): on the capacity-1 store `kvs6` holding key `[97]`,
replacing `[97]` succeeds and putting the new key `[98]` fails with
`RESOURCE_EXHAUSTED`. -/
theorem put_at_full_index_witness :
    (kvs6.Put [97] [2]).1 = Status.OK ∧
      (kvs6.Put [98] [2]).1 = Status.RESOURCE_EXHAUSTED :=
  ⟨(put_at_full_index kvs6 [97] [2] (by decide) (by decide) (by decide)
      (by decide)).1 (by decide),
   (put_at_full_index kvs6 [98] [2] (by decide) (by decide) (by decide)
      (by decide)).2 (by decide)⟩

/-- Example store for the C7 witness: empty index of capacity 4. -/
def kvs7 : KeyValueStore := ⟨4, 64, []⟩

/-- C7: `Put` fails with `INVALID_ARGUMENT` exactly on a zero-length key, a
key longer than 64 bytes, or an oversize value; key lengths 1 through 64 with
a valid value never draw `INVALID_ARGUMENT`; and `Delete` applies the same
key-length validation. -/
theorem put_delete_validation (kvs : KeyValueStore) (key value : List Nat) :
    ((key.length = 0 ∨ kMaxKeyLength < key.length ∨
        kvs.maxValueLength < value.length) →
      (kvs.Put key value).1 = Status.INVALID_ARGUMENT) ∧
    (1 ≤ key.length → key.length ≤ kMaxKeyLength →
      value.length ≤ kvs.maxValueLength →
      (kvs.Put key value).1 ≠ Status.INVALID_ARGUMENT) ∧
    ((key.length = 0 ∨ kMaxKeyLength < key.length) →
      (kvs.Delete key).1 = Status.INVALID_ARGUMENT) ∧
    (1 ≤ key.length → key.length ≤ kMaxKeyLength →
      (kvs.Delete key).1 ≠ Status.INVALID_ARGUMENT) := by
  refine ⟨?_, ?_, ?_, ?_⟩
  · intro h
    unfold KeyValueStore.Put
    rw [if_pos h]
  · intro h1 h64 hv
    have hval : ¬(key.length = 0 ∨ kMaxKeyLength < key.length ∨
        kvs.maxValueLength < value.length) := by
      push_neg
      exact ⟨by omega, h64, hv⟩
    unfold KeyValueStore.Put
    rw [if_neg hval]
    cases hfind : findDescriptor kvs.entries key with
    | some d => simp [hfind]
    | none =>
      simp only [hfind]
      by_cases hcap : kvs.maxEntries ≤ kvs.entries.length
      · rw [if_pos hcap]
        simp
      · rw [if_neg hcap]
        simp
  · intro h
    unfold KeyValueStore.Delete
    rw [if_pos h]
  · intro h1 h64
    have hval : ¬(key.length = 0 ∨ kMaxKeyLength < key.length) := by
      push_neg
      exact ⟨by omega, h64⟩
    unfold KeyValueStore.Delete
    rw [if_neg hval]
    cases hfind : findDescriptor kvs.entries key with
    | some d =>
      simp only [hfind]
      by_cases hdel : d.state = EntryState.deleted
      · rw [if_pos hdel]
        simp
      · rw [if_neg hdel]
        simp
    | none => simp [hfind]

/-- C7 (witness): on the empty store `kvs7`, putting or deleting the empty
key fails with `INVALID_ARGUMENT`, while valid one-byte keys pass
validation. -/
theorem put_delete_validation_witness :
    (kvs7.Put [] [1]).1 = Status.INVALID_ARGUMENT ∧
    (kvs7.Put [97] []).1 ≠ Status.INVALID_ARGUMENT ∧
    (kvs7.Delete []).1 = Status.INVALID_ARGUMENT ∧
    (kvs7.Delete [97]).1 ≠ Status.INVALID_ARGUMENT :=
  ⟨(put_delete_validation kvs7 [] [1]).1 (by decide),
   (put_delete_validation kvs7 [97] []).2.1 (by decide) (by decide) (by decide),
   (put_delete_validation kvs7 [] [1]).2.2.1 (by decide),
   (put_delete_validation kvs7 [97] []).2.2.2 (by decide) (by decide)⟩

/-- C8: `RandomPresentKey` returns the empty string on an empty reference
map, and on a non-empty map returns `map_.begin()->second` — the value of the
first entry, not its key (so whenever the first entry's key and value differ,
the returned string is not that key). -/
theorem random_present_key_returns_value :
    RandomPresentKey [] = "" ∧
    (∀ (e : String × String) (rest : List (String × String)),
      RandomPresentKey (e :: rest) = e.2) ∧
    (∀ (e : String × String) (rest : List (String × String)),
      e.1 ≠ e.2 → RandomPresentKey (e :: rest) ≠ e.1) := by
  refine ⟨rfl, fun e rest => rfl, fun e rest hne => ?_⟩
  show e.2 ≠ e.1
  exact fun hh => hne hh.symm

/-- C8 (witness): on the one-entry map binding key `"k"` to value `"v"`,
`RandomPresentKey` does not return the key. -/
theorem random_present_key_returns_value_witness :
    RandomPresentKey [("k", "v")] ≠ "k" :=
  random_present_key_returns_value.2.2 ("k", "v") [] (by decide)

end PwKvs
